import Mathlib

/-!
Verification development for the `botik` repository.

`src/main.go` contains the multi-step provisioning wizard (admin gate,
per-user step machine, Remnawave REST client); those parts are embedded
directly from the Go source below.  The audience-resolution and batched
mention-broadcast pipeline described by the specification is not present
in `src/main.go`; the definitions for that pipeline are modelled from the
specification text and are marked as such in their doc comments.
-/

/-- Models Go `unicode.IsSpace` (the character set trimmed by
`strings.TrimSpace`): tab through carriage return, space, NEL, NBSP and
the Unicode space separators. -/
def goIsSpace (c : Char) : Bool :=
  let n := c.toNat
  (9 ≤ n && n ≤ 13) || n == 32 || n == 0x85 || n == 0xA0 || n == 0x1680 ||
  (0x2000 ≤ n && n ≤ 0x200A) || n == 0x2028 || n == 0x2029 || n == 0x202F ||
  n == 0x205F || n == 0x3000

/-- Models Go `strings.TrimSpace`: drop leading and trailing space
characters. -/
def goTrimSpace (s : String) : String :=
  String.mk (((s.data.dropWhile goIsSpace).reverse.dropWhile goIsSpace).reverse)

/-- Modelled from the spec: the trigger test of §6 — the trimmed message
text must exactly equal one of the three listed commands (case-sensitive,
no argument parsing).  The trigger-dispatch code is absent from
`src/main.go`. -/
def isTagAllTrigger (text : String) : Bool :=
  let t := goTrimSpace text
  t == "/tagall" || t == "/all" || t == "@all"

/-- Modelled from the spec: what the message dispatcher does with an
inbound text message — either run the tag-everyone pipeline or not. -/
inductive MsgAction
  | runTagAllPipeline
  | other
deriving DecidableEq

/-- Modelled from the spec: dispatch of an inbound text message (§6);
the tag-everyone pipeline runs exactly when the trigger test succeeds. -/
def dispatchText (text : String) : MsgAction :=
  if isTagAllTrigger text then MsgAction.runTagAllPipeline else MsgAction.other

/-- Modelled from the spec: `UserProfile` of §3 — id, optional username
(empty string means absent, as in the Go API types), name parts and the
bot / deleted flags. -/
structure UserProfile where
  id : Int
  username : String
  firstName : String
  lastName : String
  isBot : Bool
  isDeleted : Bool
deriving DecidableEq

/-- Modelled from the spec: escaping of one character of a display name
(§4.3) — `[`, `]`, `(`, `)` each get a preceding backslash, every other
character passes through. -/
def escapeChar (c : Char) : List Char :=
  if c == '[' || c == ']' || c == '(' || c == ')' then ['\\', c] else [c]

/-- Modelled from the spec: escape the four bracket characters of a
display name, each character independently (§4.3). -/
def escapeName (s : String) : String :=
  String.mk (s.data.map escapeChar).flatten

/-- Modelled from the spec: display name of §4.3 step 2 — first name,
with a space and the last name appended when the last name is
non-empty. -/
def displayName (p : UserProfile) : String :=
  if p.lastName = "" then p.firstName else p.firstName ++ " " ++ p.lastName

/-- Modelled from the spec: the MentionFormatter of §4.3.  A non-empty
username yields `@username`; otherwise a markdown deep-link built from the
escaped display name and the numeric id; an empty display name yields no
token. -/
def formatMention (p : UserProfile) : Option String :=
  if p.username = "" then
    let dn := displayName p
    if dn = "" then none
    else some ("[" ++ escapeName dn ++ "](tg://user?id=" ++ toString p.id ++ ")")
  else some ("@" ++ p.username)

/-- Modelled from the spec: role variants of a participant record (§3,
§9) — the concrete role sub-variants plus an explicit non-qualifying
default variant. -/
inductive Role
  | member
  | admin
  | creator
  | self
  | banned
deriving DecidableEq

/-- Modelled from the spec: `ParticipantRecord` of §3 — member id plus
role, in server-provided order. -/
structure ParticipantRecord where
  memberID : Int
  role : Role
deriving DecidableEq

/-- Modelled from the spec: one entry of the event's side-list of known
chat entities (§4.2) — a chat id together with its access credential. -/
structure ChatEntity where
  id : Int
  accessCredential : Int
deriving DecidableEq

/-- Modelled from the spec: `ChatReference` of §3 — the tagged union
produced by the PeerClassifier. -/
inductive ChatReference
  | directMessage (userID : Int)
  | smallGroup (chatID : Int)
  | supergroup (channelID : Int) (accessCredential : Int)
deriving DecidableEq

/-- Modelled from the spec: role filter on the SmallGroup path (§4.2) —
Member, Admin and Creator qualify; everything else is a no-op. -/
def smallGroupQualifies : Role → Bool
  | Role.member => true
  | Role.admin => true
  | Role.creator => true
  | _ => false

/-- Modelled from the spec: role filter on the Supergroup path (§4.2) —
Member, Self, Admin and Creator qualify; everything else is a no-op. -/
def channelQualifies : Role → Bool
  | Role.member => true
  | Role.admin => true
  | Role.creator => true
  | Role.self => true
  | _ => false

/-- Modelled from the spec: SmallGroup profile resolution (§4.2) — look
the member id up in the event-level entity cache. -/
def resolveFromCache (cache : List (Int × UserProfile)) (r : ParticipantRecord) :
    Option UserProfile :=
  cache.lookup r.memberID

/-- Modelled from the spec: Supergroup profile resolution (§4.2) — linear
search by id inside the fetch response's own embedded user list. -/
def resolveFromUsers (users : List UserProfile) (r : ParticipantRecord) :
    Option UserProfile :=
  users.find? (fun u => u.id == r.memberID)

/-- Modelled from the spec: filter and format one fetched record (§4.2,
§4.3) — non-qualifying roles, unresolved ids, bots, deleted accounts and
members with no renderable identity all produce no token. -/
def recordToken (qualifies : Role → Bool) (resolve : ParticipantRecord → Option UserProfile)
    (r : ParticipantRecord) : Option String :=
  if qualifies r.role then
    match resolve r with
    | none => none
    | some p => if p.isBot || p.isDeleted then none else formatMention p
  else none

/-- Modelled from the spec: collect the mention tokens of a fetched
membership list, preserving fetch order (§4.3). -/
def collectTokens (qualifies : Role → Bool)
    (resolve : ParticipantRecord → Option UserProfile)
    (records : List ParticipantRecord) : List String :=
  records.filterMap (recordToken qualifies resolve)

/-- Byte length of a rendered string, as Go `len` on a string: the sum
of the UTF-8 sizes of its characters. -/
def strBytes (s : String) : Nat :=
  (s.data.map Char.utf8Size).sum

/-- Models Go `strings.Join(toks, " ")` as used by the renderers. -/
def joinTokens : List String → String
  | [] => ""
  | [t] => t
  | t :: ts => t ++ " " ++ joinTokens ts

/-- Modelled from the spec: the kind of an emitted batch — informational
zero-audience notice, plain broadcast header, index-range header, or a
shrink-produced batch (§4.4). -/
inductive BatchKind
  | info
  | broadcast
  | ranged
  | shrunk
deriving DecidableEq

/-- Modelled from the spec: `MessageBatch` of §3 — the ordered
sub-sequence of tokens it carries, its kind, and the final rendered
text. -/
structure Batch where
  toks : List String
  kind : BatchKind
  rendered : String
deriving DecidableEq

/-- Modelled from the spec: the zero-audience informational message
(§4.4 step 1). -/
def renderNoActive : String :=
  "No active participants found."

/-- Modelled from the spec: render a token window under the plain
broadcast header (§4.4 step 2, also used by the shrink re-render of step
4). -/
def renderBroadcast (toks : List String) : String :=
  "Attention everyone!\n" ++ joinTokens toks

/-- Modelled from the spec: render a token window under a header stating
its 1-based start..end index range relative to the full list (§4.4 step
3). -/
def renderRange (lo hi : Nat) (toks : List String) : String :=
  "Attention everyone (" ++ toString lo ++ "-" ++ toString hi ++ ")!\n" ++
    joinTokens toks

/-- Modelled from the spec: the exclusive end index of the window of up
to 50 tokens starting at cursor `i` (§4.4 step 3). -/
def windowEnd (toks : List String) (i : Nat) : Nat :=
  min (i + 50) toks.length

/-- Modelled from the spec: the current window of §4.4 step 3 — up to 50
consecutive tokens starting at the cursor. -/
def window (toks : List String) (i : Nat) : List String :=
  (toks.drop i).take (windowEnd toks i - i)

/-- Modelled from the spec: the first half of the current window, kept by
the shrink of §4.4 step 4. -/
def halfWindow (toks : List String) (i : Nat) : List String :=
  (window toks i).take ((window toks i).length / 2)

/-- Modelled from the spec: the windowed walk of §4.4 steps 3–4, cursor
at `i`.  Each window renders with the range header; an over-long window
instead emits only its first half under the plain header, and the cursor
rewind of step 4 (−25) combined with the +50 stride makes the next
window start at `i + 25`.  The shrink is applied once per window and its
result is not re-checked against the byte bound. -/
def partWindows (toks : List String) (i : Nat) : List Batch :=
  if h : i < toks.length then
    if 4000 < strBytes (renderRange (i + 1) (windowEnd toks i) (window toks i)) then
      Batch.mk (halfWindow toks i) BatchKind.shrunk (renderBroadcast (halfWindow toks i)) ::
        partWindows toks (i + 25)
    else
      Batch.mk (window toks i) BatchKind.ranged
          (renderRange (i + 1) (windowEnd toks i) (window toks i)) ::
        partWindows toks (i + 50)
  else []
termination_by toks.length - i

/-- Modelled from the spec: the BatchPartitioner of §4.4 — empty input
yields the single informational batch; an input that fits both bounds as
one message yields the single broadcast batch; otherwise the windowed
walk. -/
def partitionTokens (toks : List String) : List Batch :=
  if toks.isEmpty then [Batch.mk [] BatchKind.info renderNoActive]
  else if toks.length ≤ 50 ∧ strBytes (renderBroadcast toks) ≤ 4000 then
    [Batch.mk toks BatchKind.broadcast (renderBroadcast toks)]
  else partWindows toks 0

/-- Modelled from the spec: the observable outbound operations of one
pipeline invocation (§6) — replies, the two fetch calls, and one send
per delivered batch. -/
inductive Effect
  | reply (text : String)
  | fetchFullChat (chatID : Int)
  | fetchChannelParticipants (channelID : Int) (credential : Int)
      (filter : String) (offset : Nat) (limit : Nat)
  | sendBatch (text : String)
deriving DecidableEq

/-- Modelled from the spec: the error taxonomy of §7. -/
inductive PipeError
  | unexpectedShape
  | transport (msg : String)
deriving DecidableEq

/-- Modelled from the spec: the fixed direct-message rejection reply
(§4.1). -/
def dmOnlyReply : String :=
  "This command only works in groups."

/-- Modelled from the spec: the apology reply sent when the supergroup
credential cannot be resolved (§4.2). -/
def apologyReply : String :=
  "Sorry, I could not resolve this chat."

/-- Modelled from the spec: the per-invocation environment — the
event-level entity cache, the side-list of known chat entities, the two
fetch responses, and the transport outcome of the i-th send (§5, §6). -/
structure TagAllEnv where
  entityCache : List (Int × UserProfile)
  sideList : List ChatEntity
  fullChatResult : Except PipeError (List ParticipantRecord)
  channelResult : Except PipeError (List ParticipantRecord × List UserProfile)
  sendResult : Nat → Except PipeError Unit

/-- Modelled from the spec: the sequential send loop of §4.4 step 5 —
one send per rendered body, in order; the first failing send aborts the
loop, drops the remaining bodies and surfaces the error. -/
def sendBatches (sendResult : Nat → Except PipeError Unit) :
    List String → Nat → List Effect × Except PipeError Unit
  | [], _ => ([], Except.ok ())
  | b :: rest, i =>
    match sendResult i with
    | Except.ok _ =>
      let out := sendBatches sendResult rest (i + 1)
      (Effect.sendBatch b :: out.1, out.2)
    | Except.error e => ([], Except.error e)

/-- Which effects are fetch calls. -/
def Effect.isFetch : Effect → Bool
  | Effect.fetchFullChat _ => true
  | Effect.fetchChannelParticipants _ _ _ _ _ => true
  | _ => false

/-- Which effects are batch sends. -/
def Effect.isSend : Effect → Bool
  | Effect.sendBatch _ => true
  | _ => false

/-- Modelled from the spec: the whole tag-everyone pipeline of §2–§4 on
one classified chat reference — direct messages short-circuit with the
fixed reply; the SmallGroup path fetches the full chat and resolves via
the entity cache; the Supergroup path first scans the side-list for the
access credential (apology reply when absent) and resolves via the
response's embedded user list; both group paths then format, partition
and send. -/
def runTagAll (env : TagAllEnv) : ChatReference → List Effect × Except PipeError Unit
  | ChatReference.directMessage _ => ([Effect.reply dmOnlyReply], Except.ok ())
  | ChatReference.smallGroup chatID =>
    let fx := Effect.fetchFullChat chatID
    match env.fullChatResult with
    | Except.error e => ([fx], Except.error e)
    | Except.ok records =>
      let toks := collectTokens smallGroupQualifies (resolveFromCache env.entityCache) records
      let out := sendBatches env.sendResult ((partitionTokens toks).map Batch.rendered) 0
      (fx :: out.1, out.2)
  | ChatReference.supergroup channelID _ =>
    match env.sideList.find? (fun ent => ent.id == channelID) with
    | none => ([Effect.reply apologyReply], Except.ok ())
    | some ent =>
      let fx := Effect.fetchChannelParticipants channelID ent.accessCredential "recent" 0 200
      match env.channelResult with
      | Except.error e => ([fx], Except.error e)
      | Except.ok pair =>
        let toks := collectTokens channelQualifies (resolveFromUsers pair.2) pair.1
        let out := sendBatches env.sendResult ((partitionTokens toks).map Batch.rendered) 0
        (fx :: out.1, out.2)

/-- Models Go `strconv.ParseInt(s, 10, 64)` as used by `init` in
`src/main.go`: optional sign, at least one ASCII digit, nothing else, and
the value must fit in a signed 64-bit integer; `none` models a non-nil
error (including the range error, on which Go discards the entry). -/
def goParseInt64 (s : String) : Option Int :=
  match s.data with
  | [] => none
  | c :: rest =>
    let signDigits : Bool × List Char :=
      if c == '-' then (true, rest)
      else if c == '+' then (false, rest) else (false, c :: rest)
    let digits := signDigits.2
    if digits.isEmpty then none
    else if digits.all Char.isDigit then
      let n : Nat := digits.foldl (fun acc d => acc * 10 + (d.toNat - 48)) 0
      let v : Int := if signDigits.1 then -(n : Int) else (n : Int)
      if -9223372036854775808 ≤ v ∧ v ≤ 9223372036854775807 then some v else none
    else none

/-- Split a character list at commas, carrying the reversed current
piece. -/
def splitCommaChars : List Char → List Char → List String
  | [], acc => [String.mk acc.reverse]
  | c :: cs, acc =>
    if c == ',' then String.mk acc.reverse :: splitCommaChars cs []
    else splitCommaChars cs (c :: acc)

/-- Models Go `strings.Split(s, ",")`. -/
def goSplitComma (s : String) : List String :=
  splitCommaChars s.data []

/-- Embeds `init` of `src/main.go` lines 111–120: split the `ADMIN_IDS`
environment value on commas, trim each piece, and keep the successfully
parsed 64-bit ids (the guard skips the loop entirely when the variable is
unset or empty).  The Go `map[int64]bool` is modelled by the list of
inserted keys. -/
def parseAdminIDs (ids : String) : List Int :=
  if ids = "" then []
  else (goSplitComma ids).filterMap (fun s => goParseInt64 (goTrimSpace s))

/-- Embeds `isAdmin` of `src/main.go` lines 123–128: an empty admin set
means no restriction; otherwise membership in the set. -/
def isAdmin (admins : List Int) (userID : Int) : Bool :=
  if admins.isEmpty then true else admins.contains userID

/-- Embeds `UserState` of `src/main.go` lines 70–75. -/
structure UserState where
  step : String
  trafficGB : Int
  daysExpire : Int
  clientName : String
deriving DecidableEq

/-- One ASCII character of the Go pattern class `[a-zA-Z0-9_-]` used by
`handleText`. -/
def validNameChar (c : Char) : Bool :=
  c.isAlpha || c.isDigit || c == '_' || c == '-'

/-- Embeds `validName.MatchString` of `src/main.go` line 451–452: the
anchored pattern matches exactly the non-empty strings made only of
characters from the class. -/
def validNameMatch (s : String) : Bool :=
  !s.data.isEmpty && s.data.all validNameChar

/-- The three observable outcomes of `handleText`: fall through to the
main menu, reject the name (error reply), or call
`finishClientCreation`. -/
inductive TextOutcome
  | mainMenu
  | invalidNameReply
  | createClient (clientName : String) (trafficGB : Int) (daysExpire : Int)
deriving DecidableEq

/-- Deletion from the `userStates` map, modelled on the association
list. -/
def eraseState (states : List (Int × UserState)) (userID : Int) :
    List (Int × UserState) :=
  states.filter (fun p => p.1 != userID)

/-- Embeds `handleText` of `src/main.go` lines 434–462 as a pure function
of the state map, the sender and the message text: missing state or a
step other than `entering_name` falls through to the main menu; the
state entry is deleted, the trimmed text is validated, and an invalid
name re-inserts a fresh `entering_name` state carrying the saved traffic
and expiry choices; a valid name proceeds to client creation. -/
def handleText (states : List (Int × UserState)) (userID : Int) (text : String) :
    List (Int × UserState) × TextOutcome :=
  match states.lookup userID with
  | none => (states, TextOutcome.mainMenu)
  | some st =>
    if st.step ≠ "entering_name" then (states, TextOutcome.mainMenu)
    else
      let clientName := goTrimSpace text
      let states1 := eraseState states userID
      if clientName = "" ∨ validNameMatch clientName = false then
        ((userID, UserState.mk "entering_name" st.trafficGB st.daysExpire "") :: states1,
          TextOutcome.invalidNameReply)
      else (states1, TextOutcome.createClient clientName st.trafficGB st.daysExpire)

/-- Wrap an integer to signed 64-bit two's-complement, as Go `int64`
arithmetic does (9223372036854775808 = 2^63, 18446744073709551616 =
2^64). -/
def toInt64 (x : Int) : Int :=
  (x + 9223372036854775808) % 18446744073709551616 - 9223372036854775808

/-- Embeds `finishClientCreation` of `src/main.go` lines 345–347: the
`TrafficLimitBytes` field stays at its zero value unless `trafficGB > 0`,
in which case it is the Go `int64` product `int64(trafficGB) *
1024 * 1024 * 1024`, which wraps on overflow. -/
def trafficLimitBytes (trafficGB : Int) : Int :=
  if 0 < trafficGB then toInt64 (trafficGB * 1024 * 1024 * 1024) else 0

/-- A long all-`a` token used as a concrete over-long mention. -/
def bigToken : String :=
  String.mk (List.replicate 4050 'a')

/-- A concrete token list whose first window still overflows the byte
bound after the shrink halving. -/
def cexToks : List String :=
  [bigToken, "b"]

/-- A concrete pipeline environment used by the witnesses. -/
def envEx : TagAllEnv where
  entityCache := []
  sideList := [ChatEntity.mk 1 2]
  fullChatResult := Except.ok []
  channelResult := Except.ok ([], [])
  sendResult := fun _ => Except.ok ()


/-- A taken prefix followed by anything contained in a further-away drop
stays an in-order sub-sequence of the original list. -/
theorem take_append_sublist_of_le (l : List α) (k s : Nat) (hks : k ≤ s)
    (X : List α) (hX : X.Sublist (l.drop s)) : (l.take k ++ X).Sublist l := by
  have h2 : (l.drop k).drop (s - k) = l.drop s := by
    rw [List.drop_drop]
    congr 1
    omega
  have h1 : (l.drop s).Sublist (l.drop k) := by
    rw [← h2]
    exact List.drop_sublist _ _
  have h3 : (l.take k ++ X).Sublist (l.take k ++ l.drop k) :=
    (List.append_sublist_append_left _).mpr (hX.trans h1)
  rw [List.take_append_drop] at h3
  exact h3

/-- The current window never carries more than 50 tokens. -/
theorem window_length_le (toks : List String) (i : Nat) :
    (window toks i).length ≤ 50 := by
  have h1 := List.length_take_le (windowEnd toks i - i) (toks.drop i)
  have h2 : windowEnd toks i ≤ i + 50 := Nat.min_le_left _ _
  show ((toks.drop i).take (windowEnd toks i - i)).length ≤ 50
  omega

/-- The half window is the corresponding prefix of the dropped token
list. -/
theorem halfWindow_eq (toks : List String) (i : Nat) :
    halfWindow toks i = (toks.drop i).take ((window toks i).length / 2) := by
  show ((toks.drop i).take (windowEnd toks i - i)).take ((window toks i).length / 2) =
    (toks.drop i).take ((window toks i).length / 2)
  rw [List.take_take]
  congr 1
  have h1 : (window toks i).length ≤ windowEnd toks i - i :=
    List.length_take_le (windowEnd toks i - i) (toks.drop i)
  omega

/-- The windows emitted from cursor `i` carry, in order and without
duplication, a sub-sequence of the tokens from position `i` on. -/
theorem partWindows_sublist (toks : List String) (i : Nat) :
    (((partWindows toks i).map Batch.toks).flatten).Sublist (toks.drop i) := by
  rw [partWindows]
  split
  case isFalse h => simp
  case isTrue h =>
    split
    case isTrue hover =>
      simp only [List.map_cons, List.flatten_cons]
      have hrec := partWindows_sublist toks (i + 25)
      rw [show toks.drop (i + 25) = (toks.drop i).drop 25 from (List.drop_drop _ _ _).symm] at hrec
      rw [halfWindow_eq]
      have hle : (window toks i).length / 2 ≤ 25 := by
        have := window_length_le toks i
        omega
      exact take_append_sublist_of_le (toks.drop i) _ 25 hle _ hrec
    case isFalse hover =>
      simp only [List.map_cons, List.flatten_cons]
      have hrec := partWindows_sublist toks (i + 50)
      rw [show toks.drop (i + 50) = (toks.drop i).drop 50 from (List.drop_drop _ _ _).symm] at hrec
      show (window toks i ++ _).Sublist (toks.drop i)
      rw [show window toks i = (toks.drop i).take (windowEnd toks i - i) from rfl]
      exact take_append_sublist_of_le (toks.drop i) _ 50
        (by have h2 : windowEnd toks i ≤ i + 50 := Nat.min_le_left _ _; omega) _ hrec
termination_by toks.length - i

/-- Every batch emitted from cursor `i` carries at most 50 tokens. -/
theorem partWindows_count (toks : List String) (i : Nat) :
    ∀ b ∈ partWindows toks i, b.toks.length ≤ 50 := by
  rw [partWindows]
  split
  case isFalse h => simp
  case isTrue h =>
    split
    case isTrue hover =>
      intro b hb
      rcases List.mem_cons.mp hb with hb | hb
      · subst hb
        show (halfWindow toks i).length ≤ 50
        rw [halfWindow_eq]
        have h1 := List.length_take_le ((window toks i).length / 2) (toks.drop i)
        have h2 := window_length_le toks i
        omega
      · exact partWindows_count toks (i + 25) b hb
    case isFalse hover =>
      intro b hb
      rcases List.mem_cons.mp hb with hb | hb
      · subst hb
        exact window_length_le toks i
      · exact partWindows_count toks (i + 50) b hb
termination_by toks.length - i

/-- Every non-shrunk batch emitted from cursor `i` respects the
4000-byte bound: its rendered text was checked before emission. -/
theorem partWindows_bytes (toks : List String) (i : Nat) :
    ∀ b ∈ partWindows toks i, b.kind ≠ BatchKind.shrunk → strBytes b.rendered ≤ 4000 := by
  rw [partWindows]
  split
  case isFalse h => simp
  case isTrue h =>
    split
    case isTrue hover =>
      intro b hb hk
      rcases List.mem_cons.mp hb with hb | hb
      · subst hb
        exact absurd rfl hk
      · exact partWindows_bytes toks (i + 25) b hb hk
    case isFalse hover =>
      intro b hb hk
      rcases List.mem_cons.mp hb with hb | hb
      · subst hb
        show strBytes (renderRange (i + 1) (windowEnd toks i) (window toks i)) ≤ 4000
        omega
      · exact partWindows_bytes toks (i + 50) b hb hk
termination_by toks.length - i

/-- When no emitted window was shrunk, the windows partition the tokens
from position `i` on exactly. -/
theorem partWindows_exact (toks : List String) (i : Nat)
    (h : ∀ b ∈ partWindows toks i, b.kind ≠ BatchKind.shrunk) :
    ((partWindows toks i).map Batch.toks).flatten = toks.drop i := by
  rw [partWindows]
  split
  case isFalse hlt =>
    have hnil : toks.drop i = [] := List.drop_eq_nil_of_le (by omega)
    simp [hnil]
  case isTrue hlt =>
    split
    case isTrue hover =>
      rw [partWindows, dif_pos hlt, if_pos hover] at h
      exact absurd rfl (h _ (List.mem_cons_self _ _))
    case isFalse hover =>
      rw [partWindows, dif_pos hlt, if_neg hover] at h
      simp only [List.map_cons, List.flatten_cons]
      have hrec := partWindows_exact toks (i + 50)
        (fun b hb => h b (List.mem_cons_of_mem _ hb))
      rw [show toks.drop (i + 50) = (toks.drop i).drop 50 from (List.drop_drop _ _ _).symm] at hrec
      rw [hrec]
      show (toks.drop i).take (windowEnd toks i - i) ++ (toks.drop i).drop 50 = toks.drop i
      by_cases hle : i + 50 ≤ toks.length
      · have he : windowEnd toks i - i = 50 := by
          show min (i + 50) toks.length - i = 50
          omega
        rw [he, List.take_append_drop]
      · have hlen : (toks.drop i).length = toks.length - i := List.length_drop _ _
        have he : windowEnd toks i - i = (toks.drop i).length := by
          show min (i + 50) toks.length - i = (toks.drop i).length
          omega
        have hnil : (toks.drop i).drop 50 = [] := List.drop_eq_nil_of_le (by omega)
        rw [he, List.take_length, hnil, List.append_nil]
termination_by toks.length - i

/-- The send loop started at index `j` delivers exactly the bodies before
the first failing send and surfaces that failure. -/
theorem sendBatches_stop (sendRes : Nat → Except PipeError Unit) (e : PipeError) :
    ∀ (bodies : List String) (j n : Nat),
      (∀ k, k < n → sendRes (j + k) = Except.ok ()) →
      sendRes (j + n) = Except.error e →
      n < bodies.length →
      sendBatches sendRes bodies j = ((bodies.take n).map Effect.sendBatch, Except.error e)
  | [], _, n, _, _, hn => absurd hn (by simp)
  | b :: rest, j, 0, _, herr, _ => by
    have h0 : sendRes j = Except.error e := by simpa using herr
    simp only [sendBatches, h0]
    rfl
  | b :: rest, j, n + 1, hok, herr, hn => by
    have h0 : sendRes j = Except.ok () := by simpa using hok 0 (Nat.succ_pos n)
    have ih := sendBatches_stop sendRes e rest (j + 1) n
      (fun k hk => by
        have hx := hok (k + 1) (by omega)
        rwa [show j + (k + 1) = j + 1 + k by omega] at hx)
      (by rwa [show j + 1 + n = j + (n + 1) by omega])
      (by simpa using hn)
    simp only [sendBatches, h0, ih]
    rfl

/-- C1 (amended): for every filtered token list, the emitted batches'
tokens form an in-order, duplicate-free sub-sequence of the input (equal
to the whole input whenever no window triggered the shrink, so any loss
is exactly the shrink-discarded portion), every batch carries at most 50
tokens, and every batch that was not produced by the shrink step has
rendered byte length at most 4000.  (The original claim's unconditional
4000-byte bound fails on shrink-produced batches — see the
counterexample.) -/
theorem claim1_partition_invariants (toks : List String) :
    (((partitionTokens toks).map Batch.toks).flatten).Sublist toks
    ∧ (∀ b ∈ partitionTokens toks, b.toks.length ≤ 50)
    ∧ (∀ b ∈ partitionTokens toks, b.kind ≠ BatchKind.shrunk → strBytes b.rendered ≤ 4000)
    ∧ ((∀ b ∈ partitionTokens toks, b.kind ≠ BatchKind.shrunk) →
        ((partitionTokens toks).map Batch.toks).flatten = toks) := by
  unfold partitionTokens
  split
  case isTrue hemp =>
    have hn : toks = [] := List.isEmpty_iff.mp hemp
    subst hn
    refine ⟨by simp, by simp, ?_, by simp⟩
    intro b hb _
    rcases List.mem_singleton.mp hb with rfl
    decide
  case isFalse hemp =>
    split
    case isTrue hfit =>
      refine ⟨?_, ?_, ?_, ?_⟩
      · simp
      · intro b hb
        rcases List.mem_singleton.mp hb with rfl
        exact hfit.1
      · intro b hb _
        rcases List.mem_singleton.mp hb with rfl
        exact hfit.2
      · intro _
        simp
    case isFalse hfit =>
      exact ⟨by simpa using partWindows_sublist toks 0,
        partWindows_count toks 0,
        partWindows_bytes toks 0,
        fun hns => by simpa using partWindows_exact toks 0 hns⟩

/-- Witness for C1 at a concrete input: on `["x"]` no window is shrunk
and the batches cover the input exactly. -/
theorem claim1_partition_invariants_witness :
    ((partitionTokens ["x"]).map Batch.toks).flatten = ["x"] :=
  (claim1_partition_invariants ["x"]).2.2.2 (by decide)

/-- Byte length distributes over string append. -/
theorem strBytes_append (a b : String) : strBytes (a ++ b) = strBytes a + strBytes b := by
  show ((a ++ b).data.map Char.utf8Size).sum =
    (a.data.map Char.utf8Size).sum + (b.data.map Char.utf8Size).sum
  rw [String.data_append, List.map_append, List.sum_append]

/-- The long token is 4050 bytes. -/
theorem strBytes_bigToken : strBytes bigToken = 4050 := by
  show ((List.replicate 4050 'a').map Char.utf8Size).sum = 4050
  rw [List.map_replicate, List.sum_replicate]
  decide

/-- The two-token counterexample list joins to 4052 bytes. -/
theorem strBytes_join_cexToks : strBytes (joinTokens cexToks) = 4052 := by
  have hj : joinTokens cexToks = bigToken ++ " " ++ "b" := rfl
  rw [hj, strBytes_append, strBytes_append, strBytes_bigToken]
  decide

/-- The shrink-emitted batch of the counterexample renders to 4070
bytes. -/
theorem strBytes_cex_shrunk : strBytes (renderBroadcast [bigToken]) = 4070 := by
  have hb : renderBroadcast [bigToken] = "Attention everyone!\n" ++ bigToken := rfl
  rw [hb, strBytes_append, strBytes_bigToken]
  decide

/-- The partitioner on the counterexample emits exactly one batch: the
shrink-produced one carrying only the long token (the short token is
discarded). -/
theorem partitionTokens_cexToks :
    partitionTokens cexToks =
      [Batch.mk [bigToken] BatchKind.shrunk (renderBroadcast [bigToken])] := by
  have hfull : strBytes (renderBroadcast cexToks) = 4072 := by
    have hb : renderBroadcast cexToks = "Attention everyone!\n" ++ joinTokens cexToks := rfl
    rw [hb, strBytes_append, strBytes_join_cexToks]
    decide
  have hrange : strBytes (renderRange (0 + 1) (windowEnd cexToks 0) (window cexToks 0)) = 4078 := by
    have hb : renderRange (0 + 1) (windowEnd cexToks 0) (window cexToks 0) =
        ("Attention everyone (" ++ toString (0 + 1 : Nat) ++ "-" ++
          toString (2 : Nat) ++ ")!\n") ++ joinTokens cexToks := rfl
    rw [hb, strBytes_append, strBytes_join_cexToks]
    decide
  have hhalf : halfWindow cexToks 0 = [bigToken] := rfl
  unfold partitionTokens
  rw [if_neg (by decide : ¬ cexToks.isEmpty = true)]
  rw [if_neg (by
    intro hc
    rw [hfull] at hc
    omega)]
  rw [partWindows, dif_pos (by decide : (0 : Nat) < cexToks.length)]
  rw [if_pos (by rw [hrange]; omega)]
  rw [hhalf]
  rw [partWindows, dif_neg (by decide : ¬ (25 : Nat) < cexToks.length)]

/-- C1 counterexample: on `cexToks` (a 4050-byte token followed by a
short one) the single emitted batch is a member of the output and its
rendered byte length exceeds 4000, refuting the claim's unconditional
byte bound. -/
theorem claim1_counterexample :
    ((partitionTokens cexToks).headD (Batch.mk [] BatchKind.info "")) ∈ partitionTokens cexToks
    ∧ 4000 <
      strBytes (((partitionTokens cexToks).headD (Batch.mk [] BatchKind.info "")).rendered) := by
  rw [partitionTokens_cexToks]
  constructor
  · simp
  · show 4000 < strBytes (renderBroadcast [bigToken])
    rw [strBytes_cex_shrunk]
    omega

/-- C3: a profile with a non-empty username always renders as
`"@" ++ username`, whatever the name fields hold. -/
theorem claim3_username_precedence (p : UserProfile) (h : p.username ≠ "") :
    formatMention p = some ("@" ++ p.username) := by
  unfold formatMention
  rw [if_neg h]

/-- Witness for C3 at a concrete profile with display-name fields set. -/
theorem claim3_username_precedence_witness :
    formatMention (UserProfile.mk 7 "alice" "Any [Name]" "Fields" false false) =
      some "@alice" :=
  claim3_username_precedence (UserProfile.mk 7 "alice" "Any [Name]" "Fields" false false)
    (by decide)

/-- C4: the empty token list produces exactly the single informational
batch, and no emitted batch carries the broadcast header. -/
theorem claim4_empty_audience :
    partitionTokens [] = [Batch.mk [] BatchKind.info renderNoActive]
    ∧ ((partitionTokens []).all fun b => !(b.kind == BatchKind.broadcast)) = true := by
  decide

/-- C2: the dispatcher runs the tag-everyone pipeline exactly when the
trimmed message text equals one of the three commands; any other text
(including different capitalisation) does not trigger it. -/
theorem claim2_trigger (text : String) :
    dispatchText text = MsgAction.runTagAllPipeline ↔
      (goTrimSpace text = "/tagall" ∨ goTrimSpace text = "/all" ∨
        goTrimSpace text = "@all") := by
  unfold dispatchText isTagAllTrigger
  split
  case isTrue hc =>
    simp only [Bool.or_eq_true, beq_iff_eq] at hc
    exact iff_of_true rfl (by tauto)
  case isFalse hc =>
    simp only [Bool.or_eq_true, beq_iff_eq] at hc
    push_neg at hc
    constructor
    · intro h
      exact absurd h (by simp)
    · intro h
      exact absurd h (by tauto)

/-- C5: on the Supergroup path, when no side-list entity carries the
requested channel id, the pipeline emits exactly the apology reply —
zero fetch calls — and terminates successfully. -/
theorem claim5_supergroup_unresolved (env : TagAllEnv) (channelID cred : Int)
    (h : ∀ ent ∈ env.sideList, ent.id ≠ channelID) :
    runTagAll env (ChatReference.supergroup channelID cred) =
      ([Effect.reply apologyReply], Except.ok ())
    ∧ ((runTagAll env (ChatReference.supergroup channelID cred)).1.countP Effect.isFetch) = 0 := by
  have hfind : env.sideList.find? (fun ent => ent.id == channelID) = none := by
    rw [List.find?_eq_none]
    intro x hx
    simpa using h x hx
  have h1 : runTagAll env (ChatReference.supergroup channelID cred) =
      ([Effect.reply apologyReply], Except.ok ()) := by
    show (match env.sideList.find? (fun ent => ent.id == channelID) with
      | none => ([Effect.reply apologyReply], Except.ok ())
      | some ent =>
        match env.channelResult with
        | Except.error e => ([Effect.fetchChannelParticipants channelID ent.accessCredential
            "recent" 0 200], Except.error e)
        | Except.ok pair =>
          (Effect.fetchChannelParticipants channelID ent.accessCredential "recent" 0 200 ::
            (sendBatches env.sendResult ((partitionTokens (collectTokens channelQualifies
              (resolveFromUsers pair.2) pair.1)).map Batch.rendered) 0).1,
            (sendBatches env.sendResult ((partitionTokens (collectTokens channelQualifies
              (resolveFromUsers pair.2) pair.1)).map Batch.rendered) 0).2)) =
      ([Effect.reply apologyReply], Except.ok ())
    rw [hfind]
  refine ⟨h1, ?_⟩
  rw [h1]
  rfl

/-- Witness for C5 at a concrete environment whose side-list holds only
an entity with a different id. -/
theorem claim5_supergroup_unresolved_witness :
    runTagAll envEx (ChatReference.supergroup 3 9) =
      ([Effect.reply apologyReply], Except.ok ()) :=
  (claim5_supergroup_unresolved envEx 3 9 (by decide)).1

/-- C6: a DirectMessage invocation short-circuits with the fixed
groups-only reply, performs no fetch and no broadcast send, and
terminates successfully, whatever the environment. -/
theorem claim6_direct_message (env : TagAllEnv) (u : Int) :
    runTagAll env (ChatReference.directMessage u) =
      ([Effect.reply dmOnlyReply], Except.ok ())
    ∧ ((runTagAll env (ChatReference.directMessage u)).1.countP
        (fun fx => fx.isFetch || fx.isSend)) = 0 :=
  ⟨rfl, rfl⟩

/-- C7: if the send of the batch at (0-based) index `n` fails while all
earlier sends succeed, exactly the first `n` bodies are delivered, in
order; the failing batch and every later one are never sent, and the
transport error is surfaced to the caller. -/
theorem claim7_send_failure (sendRes : Nat → Except PipeError Unit)
    (bodies : List String) (n : Nat) (e : PipeError)
    (hok : ∀ k, k < n → sendRes k = Except.ok ())
    (herr : sendRes n = Except.error e)
    (hn : n < bodies.length) :
    sendBatches sendRes bodies 0 =
      ((bodies.take n).map Effect.sendBatch, Except.error e) :=
  sendBatches_stop sendRes e bodies 0 n
    (fun k hk => by simpa using hok k hk)
    (by simpa using herr)
    hn

/-- A send oracle that fails exactly on the second send. -/
def sendResEx : Nat → Except PipeError Unit :=
  fun k => if k == 1 then Except.error (PipeError.transport "boom") else Except.ok ()

/-- Witness for C7 at a concrete oracle failing on the second send of
three bodies: only the first body is delivered and the error is
surfaced. -/
theorem claim7_send_failure_witness :
    sendBatches sendResEx ["a", "b", "c"] 0 =
      ([Effect.sendBatch "a"], Except.error (PipeError.transport "boom")) := by
  have h := claim7_send_failure sendResEx ["a", "b", "c"] 1 (PipeError.transport "boom")
    (fun k hk => by
      have hk0 : k = 0 := by omega
      subst hk0
      rfl)
    rfl
    (by decide)
  exact h

/-- C8: an unset or empty `ADMIN_IDS` yields an empty admin set, as does
a value with no parseable integer entry; the gate passes a user exactly
when the admin set is empty (no restriction) or contains the user. -/
theorem claim8_admin_gate :
    parseAdminIDs "" = []
    ∧ (∀ ids : String,
        (∀ part ∈ goSplitComma ids, goParseInt64 (goTrimSpace part) = none) →
        parseAdminIDs ids = [])
    ∧ (∀ (ids : String) (u : Int),
        isAdmin (parseAdminIDs ids) u = true ↔
          (parseAdminIDs ids = [] ∨ u ∈ parseAdminIDs ids)) := by
  refine ⟨rfl, ?_, ?_⟩
  · intro ids h
    unfold parseAdminIDs
    split
    · rfl
    · rw [List.filterMap_eq_nil_iff]
      exact fun a ha => h a ha
  · intro ids u
    unfold isAdmin
    split
    case isTrue hemp =>
      exact iff_of_true rfl (Or.inl (List.isEmpty_iff.mp hemp))
    case isFalse hemp =>
      have hne : parseAdminIDs ids ≠ [] := by
        intro hx
        rw [hx] at hemp
        exact hemp rfl
      constructor
      · intro hc
        exact Or.inr (by simpa using hc)
      · intro hc
        rcases hc with hc | hc
        · exact absurd hc hne
        · simpa using hc

/-- Witness for C8: a value with no parseable entry leaves the admin set
empty, and then any user passes the gate. -/
theorem claim8_admin_gate_witness :
    parseAdminIDs "x, y" = [] ∧ isAdmin (parseAdminIDs "x, y") 5 = true := by
  have h2 := claim8_admin_gate.2.1 "x, y" (by decide)
  exact ⟨h2, (claim8_admin_gate.2.2 "x, y" 5).mpr (Or.inl h2)⟩

/-- C9: with a saved `entering_name` state, a message whose trimmed text
is empty or contains a character outside `[a-zA-Z0-9_-]` produces the
invalid-name outcome (so no client-creation request) and re-saves an
`entering_name` state carrying the previous traffic and expiry
choices. -/
theorem claim9_invalid_name_keeps_state
    (states : List (Int × UserState)) (userID : Int) (text : String) (st : UserState)
    (hlook : states.lookup userID = some st)
    (hstep : st.step = "entering_name")
    (hbad : goTrimSpace text = "" ∨ ∃ c ∈ (goTrimSpace text).data, validNameChar c = false) :
    (handleText states userID text).2 = TextOutcome.invalidNameReply
    ∧ (handleText states userID text).1.lookup userID =
        some (UserState.mk "entering_name" st.trafficGB st.daysExpire "") := by
  have hcond : goTrimSpace text = "" ∨ validNameMatch (goTrimSpace text) = false := by
    rcases hbad with hbad | ⟨c, hc, hcv⟩
    · exact Or.inl hbad
    · right
      unfold validNameMatch
      rcases hall : (goTrimSpace text).data.all validNameChar with _ | _
      · simp
      · exact absurd (List.all_eq_true.mp hall c hc) (by rw [hcv]; decide)
  have key : handleText states userID text =
      ((userID, UserState.mk "entering_name" st.trafficGB st.daysExpire "") ::
          eraseState states userID,
        TextOutcome.invalidNameReply) := by
    unfold handleText
    rw [hlook]
    show (if st.step ≠ "entering_name" then (states, TextOutcome.mainMenu)
      else
        if goTrimSpace text = "" ∨ validNameMatch (goTrimSpace text) = false then
          ((userID, UserState.mk "entering_name" st.trafficGB st.daysExpire "") ::
              eraseState states userID,
            TextOutcome.invalidNameReply)
        else (eraseState states userID,
          TextOutcome.createClient (goTrimSpace text) st.trafficGB st.daysExpire)) = _
    rw [if_neg (by rw [hstep]; exact fun hx => hx rfl), if_pos hcond]
  rw [key]
  exact ⟨rfl, by simp [List.lookup]⟩

/-- Witness for C9 at a concrete state map and a message containing a
space: the outcome is the invalid-name reply and the traffic and expiry
choices survive. -/
theorem claim9_invalid_name_keeps_state_witness :
    (handleText [(1, UserState.mk "entering_name" 50 30 "")] 1 "bad name!").2 =
      TextOutcome.invalidNameReply
    ∧ (handleText [(1, UserState.mk "entering_name" 50 30 "")] 1 "bad name!").1.lookup 1 =
        some (UserState.mk "entering_name" 50 30 "") :=
  claim9_invalid_name_keeps_state [(1, UserState.mk "entering_name" 50 30 "")] 1
    "bad name!" (UserState.mk "entering_name" 50 30 "") (by decide) rfl (by decide)

/-- C10 counterexample: at `trafficGB = 2^33` (reachable, since the
traffic callback parses an arbitrary integer) the Go `int64` product
wraps to `-2^63`, so the field does not equal `trafficGB * 1024^3`. -/
theorem claim10_counterexample :
    (0 : Int) < 8589934592
    ∧ trafficLimitBytes 8589934592 ≠ 8589934592 * 1024 * 1024 * 1024 := by
  constructor
  · decide
  · intro hx
    have hv : trafficLimitBytes 8589934592 = -9223372036854775808 := by decide
    rw [hv] at hx
    exact absurd hx (by decide)

/-- C10 (amended): for positive `trafficGB` below `2^33` — so that the
`int64` product cannot overflow — the field equals exactly
`trafficGB * 1024^3`, and at `trafficGB = 0` it stays `0` (the JSON
`omitempty` then omits it, meaning unlimited). -/
theorem claim10_traffic_limit (g : Int) (h1 : 0 < g) (h2 : g < 8589934592) :
    trafficLimitBytes g = g * 1024 * 1024 * 1024 ∧ trafficLimitBytes 0 = 0 := by
  constructor
  · unfold trafficLimitBytes toInt64
    rw [if_pos h1]
    omega
  · rfl

/-- Witness for C10 at the 500 GB button value. -/
theorem claim10_traffic_limit_witness :
    trafficLimitBytes 500 = 536870912000 ∧ trafficLimitBytes 0 = 0 := by
  have h := claim10_traffic_limit 500 (by decide) (by decide)
  exact ⟨h.1.trans (by decide), h.2⟩
